import Mathlib

/-!
Verification of `actix-web-queryst` (src/lib.rs): a typed query-string
extractor for actix-web.  The crate's own code is the glue in
`QuerySt::from_query`, `FromRequest for QuerySt`, `QueryStConfig` and
`QueryStPayloadError`; the query-string grammar (crate `queryst`) and the
typed decoding (crate `serde_json`) are external collaborators, modelled
here from the specification's description of their behaviour.
-/

/-- The generic parsed value: the JSON data model of `serde_json::Value`,
into which the raw query string is first converted before typed decoding. -/
inductive JsonValue where
  | null
  | bool (b : Bool)
  | num (n : Int)
  | str (s : String)
  | arr (items : List JsonValue)
  | obj (entries : List (String × JsonValue))

/-- Error value of the external parser (`queryst::ParseError`), modelled as
a message-carrying record. -/
structure ParseError where
  msg : String
deriving DecidableEq

/-- Error value of the external typed decoder (`serde_json::Error`),
modelled as a message-carrying record. -/
structure SerdeError where
  msg : String
deriving DecidableEq

/-- A set of errors that can occur during parsing query strings
(src/lib.rs, `QueryStPayloadError`): either the raw query failed to parse
into a generic value, or the generic value failed to decode into the
target type. -/
inductive QueryStPayloadError where
  | DeserializeValue (e : ParseError)
  | DeserializeType (e : SerdeError)
deriving DecidableEq

/-- The `Display` impl of `QueryStPayloadError` (src/lib.rs, derive
`Display` attributes on the two variants). -/
def QueryStPayloadError.display : QueryStPayloadError → String
  | .DeserializeValue e => "QuerySt invalid query provided: " ++ e.msg
  | .DeserializeType e => "QuerySt error in deserializing to type: " ++ e.msg

/-- The impl `ResponseError::status_code` for `QueryStPayloadError` (src/lib.rs):
always `StatusCode::BAD_REQUEST`, ignoring the variant. -/
def QueryStPayloadError.status_code (_ : QueryStPayloadError) : Nat := 400

/-- A framework error value (`actix_web::Error`), modelled by the data the
claims observe: the HTTP status of its error response and its display
message. -/
structure ActixError where
  status : Nat
  message : String
deriving DecidableEq

/-- The default conversion `QueryStPayloadError → actix_web::Error`
(the `e.into()` call in `from_request`): the response carries the
`ResponseError` status code and the display text. -/
def QueryStPayloadError.into (e : QueryStPayloadError) : ActixError :=
  { status := e.status_code, message := e.display }

namespace queryst

/-- Shape of one query-string key after bracket analysis. -/
inductive KeyForm where
  | plain (k : String)
  | arrayKey (k : String)
  | objKey (k : String) (sub : String)

/-- Split a character list at every occurrence of the separator character
(the separator is dropped; n separators yield n+1 chunks). -/
def splitOnChar (c : Char) : List Char → List (List Char)
  | [] => [[]]
  | x :: xs =>
    if x = c then [] :: splitOnChar c xs
    else
      match splitOnChar c xs with
      | [] => [[x]]
      | y :: ys => (x :: y) :: ys

/-- Split one `key=value` pair at the first `=`, returning the key's
characters and the value; a pair without `=` has the empty value. -/
def parsePair : List Char → List Char × String
  | [] => ([], "")
  | c :: rest =>
    if c = '=' then ([], String.mk rest)
    else
      let (k, v) := parsePair rest
      (c :: k, v)

/-- Read the bracketed part of a key after its opening `[`: the characters
up to a final `]`, which may contain no further bracket; anything else is
malformed bracket nesting. -/
def checkSub (acc : List Char) : List Char → Except ParseError (List Char)
  | [] => .error ⟨"malformed bracket in key"⟩
  | [c] =>
    if c = ']' then .ok acc.reverse else .error ⟨"malformed bracket in key"⟩
  | c :: c2 :: rest =>
    if c = '[' || c = ']' then .error ⟨"malformed bracket nesting in key"⟩
    else checkSub (c :: acc) (c2 :: rest)

/-- Classify a key as plain (`k`), array-push (`k[]`) or nested object
(`k[sub]`), accumulating the base name until the first `[`; malformed
bracket nesting is a parse error. -/
def parseKeyAux (base : List Char) : List Char → Except ParseError KeyForm
  | [] => .ok (.plain (String.mk base.reverse))
  | c :: rest =>
    if c = '[' then
      match checkSub [] rest with
      | .error e => .error e
      | .ok [] => .ok (.arrayKey (String.mk base.reverse))
      | .ok sub => .ok (.objKey (String.mk base.reverse) (String.mk sub))
    else parseKeyAux (c :: base) rest

/-- Classify a whole key. -/
def parseKey (k : List Char) : Except ParseError KeyForm := parseKeyAux [] k

/-- Look a key up in an association list of object entries. -/
def lookupEntry : List (String × JsonValue) → String → Option JsonValue
  | [], _ => none
  | (k0, v0) :: rest, k => if k0 = k then some v0 else lookupEntry rest k

/-- Set a key in an association list of object entries, replacing an
existing entry in place or appending a new one at the end. -/
def setEntry : List (String × JsonValue) → String → JsonValue → List (String × JsonValue)
  | [], k, v => [(k, v)]
  | (k0, v0) :: rest, k, v =>
    if k0 = k then (k0, v) :: rest else (k0, v0) :: setEntry rest k v

/-- Merge one classified key/value pair into the object built so far:
plain keys set a string, `k[]` appends to the ordered array under `k`, and
`k[sub]` sets `sub` in the nested object under `k`. -/
def insertPair (acc : List (String × JsonValue)) (kf : KeyForm) (v : String) :
    Except ParseError (List (String × JsonValue)) :=
  match kf with
  | .plain k => .ok (setEntry acc k (.str v))
  | .arrayKey k =>
    match lookupEntry acc k with
    | none => .ok (setEntry acc k (.arr [.str v]))
    | some (.arr xs) => .ok (setEntry acc k (.arr (xs ++ [.str v])))
    | some _ => .error ⟨"cannot append to a non-array value"⟩
  | .objKey k sub =>
    match lookupEntry acc k with
    | none => .ok (setEntry acc k (.obj [(sub, .str v)]))
    | some (.obj es) => .ok (setEntry acc k (.obj (setEntry es sub (.str v))))
    | some _ => .error ⟨"cannot nest into a non-object value"⟩

/-- Fold all `key=value` pairs of the query into one object. -/
def parsePairs (acc : List (String × JsonValue)) :
    List (List Char) → Except ParseError (List (String × JsonValue))
  | [] => .ok acc
  | p :: rest => do
    let (k, v) := parsePair p
    let kf ← parseKey k
    let acc2 ← insertPair acc kf v
    parsePairs acc2 rest

/-- Modelled from the spec: the external collaborator `queryst::parse`
(not part of this repository's sources).  "Query Parser (external
collaborator): turns a raw query string into a generic tree-structured
value, supporting repeated keys as arrays and bracketed keys as nested
objects"; repeated bracketed keys produce ordered sequences and bracketed
object keys produce nested mappings; malformed bracket nesting is a parse
error; an empty query yields the null value, and every produced value is
built from strings, arrays and objects only. -/
def parse (query_str : String) : Except ParseError JsonValue :=
  if query_str = "" then .ok .null
  else (parsePairs [] (splitOnChar '&' query_str.data)).map JsonValue.obj

end queryst

/-- Extract information from the request's query using `queryst`
(src/lib.rs, `pub struct QuerySt<T>(pub T)`): a transparent single-field
wrapper around the target type. -/
structure QuerySt (T : Type) where
  val : T
deriving DecidableEq

/-- The method `QuerySt::into_inner` (src/lib.rs): deconstruct to the inner value. -/
def QuerySt.into_inner (q : QuerySt T) : T := q.val

/-- The impl `Deref for QuerySt` (src/lib.rs): read access to the inner value. -/
def QuerySt.deref (q : QuerySt T) : T := q.val

/-- The impl `DerefMut for QuerySt` (src/lib.rs) hands out a mutable reference to
the single inner field; a mutation performed through it is, in a pure
embedding, the update of that field by the mutating function. -/
def QuerySt.modify (q : QuerySt T) (f : T → T) : QuerySt T := ⟨f q.val⟩

/-- The method `QuerySt::from_query` (src/lib.rs): parse the raw query string with
`queryst::parse`, mapping failure to `DeserializeValue`; then decode the
generic value into `T`, mapping failure to `DeserializeType` and wrapping
success in `QuerySt`.  The external decoder `serde_json::from_value::<T>`
is abstracted as the function argument `decode`. -/
def QuerySt.from_query (decode : JsonValue → Except SerdeError T)
    (query_str : String) : Except QueryStPayloadError (QuerySt T) := do
  let value ← (queryst.parse query_str).mapError QueryStPayloadError.DeserializeValue
  ((decode value).mapError QueryStPayloadError.DeserializeType).map QuerySt.mk

/-- The data of an `actix_web::HttpRequest` that this crate reads: its
query string and its path (the path is only logged). -/
structure HttpRequest where
  query_string : String
  path : String

/-- QuerySt extractor configuration (src/lib.rs, `QueryStConfig`): an
optional shared error-handling function from the error and the request to
a framework error. -/
structure QueryStConfig where
  ehandler : Option (QueryStPayloadError → HttpRequest → ActixError)

/-- The builder `QueryStConfig::error_handler` (src/lib.rs): builder setting the
custom error handler. -/
def QueryStConfig.error_handler (c : QueryStConfig)
    (f : QueryStPayloadError → HttpRequest → ActixError) : QueryStConfig :=
  { c with ehandler := some f }

/-- The impl `Default for QueryStConfig` (src/lib.rs): no custom handler. -/
def QueryStConfig.default : QueryStConfig := { ehandler := none }

/-- The type `std::future::Ready`: an already-completed future holding its value. -/
structure Ready (α : Type) where
  value : α

/-- The constructor `std::future::ready`. -/
def ready (x : α) : Ready α := ⟨x⟩

/-- The impl `FromRequest::from_request` for `QuerySt` (src/lib.rs): look up the
optional `QueryStConfig` from the request's application data (passed here
as the `app_data` argument, mirroring `req.app_data::<Self::Config>()`),
take its handler if any, run `from_query` on the request's query string,
map a failure through the custom handler when present and through the
default conversion `e.into()` otherwise, and return the result as an
already-completed future.  The debug log emitted on failure is a side
effect outside the pure embedding. -/
def QuerySt.from_request (decode : JsonValue → Except SerdeError T)
    (req : HttpRequest) (app_data : Option QueryStConfig) :
    Ready (Except ActixError (QuerySt T)) :=
  let error_handler := (app_data.map (fun c => c.ehandler)).getD none
  let r := (QuerySt.from_query decode req.query_string).mapError (fun e =>
    match error_handler with
    | some h => h e req
    | none => e.into)
  ready r

/-- Modelled from the spec: the synchronous description of extraction —
"fully synchronous computation ... wrapped in an already-completed
asynchronous result"; the value of the future is the result of applying
`from_query` to the request's query string, with the failure branch mapped
through the configured handler when one is present and through the default
error conversion otherwise. -/
def from_request_sync (decode : JsonValue → Except SerdeError T)
    (req : HttpRequest) (app_data : Option QueryStConfig) :
    Except ActixError (QuerySt T) :=
  (QuerySt.from_query decode req.query_string).mapError (fun e =>
    match app_data with
    | some c =>
      match c.ehandler with
      | some h => h e req
      | none => e.into
    | none => e.into)

/-!
Concrete target types of the repository's tests, with their serde-derived
decoders modelled from the spec's description of the external Typed
Decoder ("converts the generic tree-structured value into a
caller-specified concrete type, failing if the shapes are incompatible";
the generic value is the JSON data model, and `serde_json` decodes a
string field from a JSON string, a `Vec` from a JSON array, a map from a
JSON object, and an integer only from a JSON number).
-/

/-- The test target `struct Id { id: String }` (named `IdT` because `Id`
is taken in Lean). -/
structure IdT where
  id : String
deriving DecidableEq

/-- A target type with a single `u64` field `id`, as in the crate's doc
example `struct AuthRequest { id: u64, ... }`. -/
structure IdNum where
  id : Nat
deriving DecidableEq

/-- A target type with a `sib: Vec<String>` field, as in the test target
`User`. -/
structure Sibs where
  sib : List String
deriving DecidableEq

/-- A target type with an `abblities: HashMap<String, String>` field, as
in the test target `User`; the map is modelled as an association list in
insertion order. -/
structure Abilities where
  abblities : List (String × String)
deriving DecidableEq

/-- Modelled from the spec: decoding a JSON value into a Rust `String` —
only a JSON string succeeds. -/
def decodeString : JsonValue → Except SerdeError String
  | .str s => .ok s
  | _ => .error ⟨"invalid type: expected a string"⟩

/-- Modelled from the spec: decoding a JSON value into a Rust `u64` —
only a non-negative JSON number succeeds; in particular a JSON string is
never coerced to a number. -/
def decodeNat : JsonValue → Except SerdeError Nat
  | .num n => if 0 ≤ n then .ok n.toNat else .error ⟨"invalid value: negative integer"⟩
  | _ => .error ⟨"invalid type: expected u64"⟩

/-- Modelled from the spec: decoding each element of a JSON array into a
`String`. -/
def decodeStringList : List JsonValue → Except SerdeError (List String)
  | [] => .ok []
  | v :: rest => do
    let s ← decodeString v
    let ss ← decodeStringList rest
    .ok (s :: ss)

/-- Modelled from the spec: decoding a JSON value into `Vec<String>` —
only an array of strings succeeds, element order preserved. -/
def decodeStrArr : JsonValue → Except SerdeError (List String)
  | .arr items => decodeStringList items
  | _ => .error ⟨"invalid type: expected a sequence"⟩

/-- Modelled from the spec: decoding each entry value of a JSON object
into a `String`. -/
def decodeStringPairs : List (String × JsonValue) → Except SerdeError (List (String × String))
  | [] => .ok []
  | (k, v) :: rest => do
    let s ← decodeString v
    let ss ← decodeStringPairs rest
    .ok ((k, s) :: ss)

/-- Modelled from the spec: decoding a JSON value into
`HashMap<String, String>` — only an object with string values succeeds. -/
def decodeStrMap : JsonValue → Except SerdeError (List (String × String))
  | .obj entries => decodeStringPairs entries
  | _ => .error ⟨"invalid type: expected a map"⟩

/-- Modelled from the spec: the serde-derived decoder for `IdT` — the
value must be an object with a string field `id`. -/
def decodeId : JsonValue → Except SerdeError IdT
  | .obj entries =>
    (match queryst.lookupEntry entries "id" with
     | some v => (decodeString v).map IdT.mk
     | none => .error ⟨"missing field id"⟩)
  | _ => .error ⟨"invalid type: expected a map"⟩

/-- Modelled from the spec: the serde-derived decoder for `IdNum` — the
value must be an object with a `u64`-decodable field `id`. -/
def decodeIdNum : JsonValue → Except SerdeError IdNum
  | .obj entries =>
    (match queryst.lookupEntry entries "id" with
     | some v => (decodeNat v).map IdNum.mk
     | none => .error ⟨"missing field id"⟩)
  | _ => .error ⟨"invalid type: expected a map"⟩

/-- Modelled from the spec: the serde-derived decoder for `Sibs`. -/
def decodeSibs : JsonValue → Except SerdeError Sibs
  | .obj entries =>
    (match queryst.lookupEntry entries "sib" with
     | some v => (decodeStrArr v).map Sibs.mk
     | none => .error ⟨"missing field sib"⟩)
  | _ => .error ⟨"invalid type: expected a map"⟩

/-- Modelled from the spec: the serde-derived decoder for `Abilities`. -/
def decodeAbilities : JsonValue → Except SerdeError Abilities
  | .obj entries =>
    (match queryst.lookupEntry entries "abblities" with
     | some v => (decodeStrMap v).map Abilities.mk
     | none => .error ⟨"missing field abblities"⟩)
  | _ => .error ⟨"invalid type: expected a map"⟩

mutual

/-- A value built only from strings, arrays and objects (and null): no
numbers and no booleans anywhere. -/
def stringOnly : JsonValue → Bool
  | .null => true
  | .bool _ => false
  | .num _ => false
  | .str _ => true
  | .arr items => stringOnlyList items
  | .obj entries => stringOnlyEntries entries

/-- Predicate `stringOnly` on every element of a list. -/
def stringOnlyList : List JsonValue → Bool
  | [] => true
  | v :: rest => stringOnly v && stringOnlyList rest

/-- Predicate `stringOnly` on every entry value of an object. -/
def stringOnlyEntries : List (String × JsonValue) → Bool
  | [] => true
  | (_, v) :: rest => stringOnly v && stringOnlyEntries rest

end

/-- C1: for every query string that parses under the queryst grammar and
whose parsed shape matches the target type (the decoder succeeds on the
parsed value), `QuerySt::from_query` returns `Ok` of a wrapper whose
decoded value is exactly the decoder's result. -/
theorem c1_from_query_ok {T : Type} (decode : JsonValue → Except SerdeError T)
    (q : String) (v : JsonValue) (t : T)
    (hparse : queryst.parse q = .ok v) (hdec : decode v = .ok t) :
    QuerySt.from_query decode q = .ok ⟨t⟩ := by
  unfold QuerySt.from_query
  rw [hparse]
  simp [Except.mapError, Except.map, Except.bind, bind, hdec]

/-- C1 witness: `id=test` parses, decodes to an `id` field equal to
`"test"`, and `from_query` returns that wrapper. -/
theorem c1_witness :
    queryst.parse "id=test" = .ok (.obj [("id", .str "test")]) ∧
    decodeId (.obj [("id", .str "test")]) = .ok ⟨"test"⟩ ∧
    QuerySt.from_query decodeId "id=test" = .ok ⟨⟨"test"⟩⟩ :=
  ⟨rfl, rfl, c1_from_query_ok decodeId "id=test" (.obj [("id", .str "test")]) ⟨"test"⟩ rfl rfl⟩

/-- C2: whenever the generic-value parse fails, `from_query` returns the
`DeserializeValue` variant carrying the parser's error, for every decoder
alike — the typed decode step is never attempted. -/
theorem c2_parse_failure {T : Type} (decode : JsonValue → Except SerdeError T)
    (q : String) (e : ParseError)
    (hparse : queryst.parse q = .error e) :
    QuerySt.from_query decode q = .error (.DeserializeValue e) := by
  unfold QuerySt.from_query
  rw [hparse]
  simp [Except.mapError, Except.bind, bind]

/-- C2 witness: the malformed-bracket query `a[=1` fails to parse, and
`from_query` surfaces the `DeserializeValue` variant. -/
theorem c2_witness :
    queryst.parse "a[=1" = .error ⟨"malformed bracket in key"⟩ ∧
    QuerySt.from_query decodeId "a[=1" =
      .error (.DeserializeValue ⟨"malformed bracket in key"⟩) :=
  ⟨rfl, c2_parse_failure decodeId "a[=1" ⟨"malformed bracket in key"⟩ rfl⟩

/-- C3: whenever the generic-value parse succeeds but the typed decode
fails, `from_query` returns the `DeserializeType` variant carrying the
decoder's error — never the parse-failure variant. -/
theorem c3_decode_failure {T : Type} (decode : JsonValue → Except SerdeError T)
    (q : String) (v : JsonValue) (e : SerdeError)
    (hparse : queryst.parse q = .ok v) (hdec : decode v = .error e) :
    QuerySt.from_query decode q = .error (.DeserializeType e) := by
  unfold QuerySt.from_query
  rw [hparse]
  simp [Except.mapError, Except.map, Except.bind, bind, hdec]

/-- C3 witness: the empty query parses (to the null value), decoding it
into the `id` record fails, and `from_query` surfaces the
`DeserializeType` variant. -/
theorem c3_witness :
    queryst.parse "" = .ok .null ∧
    decodeId .null = .error ⟨"invalid type: expected a map"⟩ ∧
    QuerySt.from_query decodeId "" =
      .error (.DeserializeType ⟨"invalid type: expected a map"⟩) :=
  ⟨rfl, rfl, c3_decode_failure decodeId "" .null ⟨"invalid type: expected a map"⟩ rfl rfl⟩

/-- C4: the status code of every error value — either variant — is 400,
its default conversion to a framework error carries status 400, and a
failing extraction with no custom handler configured (no config at all, or
a config whose handler is unset) resolves to exactly that default
conversion, hence HTTP 400. -/
theorem c4_default_is_400 {T : Type} (decode : JsonValue → Except SerdeError T)
    (req : HttpRequest) (app_data : Option QueryStConfig) (e : QueryStPayloadError)
    (hnh : (app_data.map (fun c => c.ehandler)).getD none = none)
    (herr : QuerySt.from_query decode req.query_string = .error e) :
    e.status_code = 400 ∧
    (QuerySt.from_request decode req app_data).value = .error e.into ∧
    e.into.status = 400 := by
  refine ⟨rfl, ?_, rfl⟩
  unfold QuerySt.from_request
  rw [hnh, herr]
  simp [ready, Except.mapError]

/-- C4 witness: with no configuration present and the empty query failing
to decode into the `id` record, extraction resolves to the default error
conversion with status 400. -/
theorem c4_witness :
    QueryStPayloadError.status_code
        (.DeserializeType ⟨"invalid type: expected a map"⟩) = 400 ∧
    (QuerySt.from_request decodeId ⟨"", "/name/user1/"⟩ none).value =
      .error (QueryStPayloadError.into
        (.DeserializeType ⟨"invalid type: expected a map"⟩)) ∧
    (QueryStPayloadError.into
        (.DeserializeType ⟨"invalid type: expected a map"⟩)).status = 400 :=
  c4_default_is_400 decodeId ⟨"", "/name/user1/"⟩ none
    (.DeserializeType ⟨"invalid type: expected a map"⟩) rfl rfl

/-- C5: with a custom error handler registered in the application data, a
failing extraction resolves to exactly the error the handler produces on
the error value and the request — so the resulting status is the
handler's. -/
theorem c5_custom_handler {T : Type} (decode : JsonValue → Except SerdeError T)
    (req : HttpRequest) (h : QueryStPayloadError → HttpRequest → ActixError)
    (e : QueryStPayloadError)
    (herr : QuerySt.from_query decode req.query_string = .error e) :
    (QuerySt.from_request decode req
        (some (QueryStConfig.default.error_handler h))).value = .error (h e req) ∧
    ∀ err : ActixError,
      (QuerySt.from_request decode req
          (some (QueryStConfig.default.error_handler h))).value = .error err →
      err.status = (h e req).status := by
  constructor
  · unfold QuerySt.from_request
    rw [herr]
    simp [ready, Except.mapError, QueryStConfig.error_handler, QueryStConfig.default]
  · intro err herr2
    unfold QuerySt.from_request at herr2
    rw [herr] at herr2
    simp [ready, Except.mapError, QueryStConfig.error_handler,
      QueryStConfig.default] at herr2
    rw [herr2]

/-- C5 witness: a handler returning status 422 makes the failing empty
query resolve to a 422 error, not the default 400. -/
theorem c5_witness :
    (QuerySt.from_request decodeId ⟨"", "/name/user1/"⟩
        (some (QueryStConfig.default.error_handler
          (fun e _ => ⟨422, e.display⟩)))).value =
      .error ⟨422,
        "QuerySt error in deserializing to type: invalid type: expected a map"⟩ :=
  (c5_custom_handler decodeId ⟨"", "/name/user1/"⟩ (fun e _ => ⟨422, e.display⟩)
    (.DeserializeType ⟨"invalid type: expected a map"⟩) rfl).1

/-- C6: with no configuration in the application data, `from_request`
behaves exactly as with the default configuration (no custom handler):
absence of configuration is never itself a failure. -/
theorem c6_absent_config_is_default {T : Type}
    (decode : JsonValue → Except SerdeError T) (req : HttpRequest) :
    QuerySt.from_request decode req none =
      QuerySt.from_request decode req (some QueryStConfig.default) := rfl

/-- C7: the wrapper is a transparent newtype — `into_inner` returns the
constructed value, read access through `Deref` sees that same value, and a
mutation through `DerefMut` is seen by both a later read and a later
`into_inner` (construct, mutate, extract round-trip). -/
theorem c7_transparent_newtype {T : Type} (t : T) (f : T → T) :
    (QuerySt.mk t).into_inner = t ∧
    (QuerySt.mk t).deref = t ∧
    ((QuerySt.mk t).modify f).deref = f ((QuerySt.mk t).deref) ∧
    ((QuerySt.mk t).modify f).into_inner = f t :=
  ⟨rfl, rfl, rfl, rfl⟩

/-- C8: repeated bracketed keys decode to an ordered sequence preserving
query-string order, and bracketed object keys decode to a nested mapping:
`sib[]=hasan&sib[]=ahmad` yields the sequence `["hasan", "ahmad"]` in that
order, and `abblities[reads]=books` yields the mapping
`{"reads": "books"}` — both at the generic-value level and through
`from_query`. -/
theorem c8_sequences_and_mappings :
    queryst.parse "sib[]=hasan&sib[]=ahmad" =
      .ok (.obj [("sib", .arr [.str "hasan", .str "ahmad"])]) ∧
    queryst.parse "abblities[reads]=books" =
      .ok (.obj [("abblities", .obj [("reads", .str "books")])]) ∧
    QuerySt.from_query decodeSibs "sib[]=hasan&sib[]=ahmad" =
      .ok ⟨⟨["hasan", "ahmad"]⟩⟩ ∧
    QuerySt.from_query decodeAbilities "abblities[reads]=books" =
      .ok ⟨⟨[("reads", "books")]⟩⟩ :=
  ⟨rfl, rfl, rfl, rfl⟩

/-- C9: the future returned by `from_request` is already resolved, and its
value equals the result of the synchronous extraction: `from_query` on the
request's query string with the failure branch mapped through the
configured or default error conversion. -/
theorem c9_never_suspends {T : Type} (decode : JsonValue → Except SerdeError T)
    (req : HttpRequest) (app_data : Option QueryStConfig) :
    (QuerySt.from_request decode req app_data).value =
      from_request_sync decode req app_data := by
  rcases app_data with _ | ⟨eh⟩
  · rfl
  · rcases eh with _ | h <;> rfl

/-- A value found in a string-only entry list is itself string-only. -/
theorem lookupEntry_stringOnly {es : List (String × JsonValue)} {k : String}
    {v : JsonValue} (hl : queryst.lookupEntry es k = some v)
    (hes : stringOnlyEntries es = true) : stringOnly v = true := by
  induction es with
  | nil => simp [queryst.lookupEntry] at hl
  | cons e rest ih =>
    obtain ⟨k0, v0⟩ := e
    simp only [queryst.lookupEntry] at hl
    simp only [stringOnlyEntries, Bool.and_eq_true] at hes
    split at hl
    · cases hl; exact hes.1
    · exact ih hl hes.2

/-- Setting a string-only value into a string-only entry list keeps the
list string-only. -/
theorem stringOnlyEntries_setEntry {es : List (String × JsonValue)} {k : String}
    {v : JsonValue} (hv : stringOnly v = true)
    (hes : stringOnlyEntries es = true) :
    stringOnlyEntries (queryst.setEntry es k v) = true := by
  induction es with
  | nil =>
    simp only [queryst.setEntry, stringOnlyEntries, Bool.and_eq_true]
    exact ⟨hv, trivial⟩
  | cons e rest ih =>
    obtain ⟨k0, v0⟩ := e
    simp only [stringOnlyEntries, Bool.and_eq_true] at hes
    simp only [queryst.setEntry]
    split
    · simp only [stringOnlyEntries, Bool.and_eq_true]
      exact ⟨hv, hes.2⟩
    · simp only [stringOnlyEntries, Bool.and_eq_true]
      exact ⟨hes.1, ih hes.2⟩

/-- The predicate `stringOnlyList` distributes over append. -/
theorem stringOnlyList_append (xs ys : List JsonValue) :
    stringOnlyList (xs ++ ys) = (stringOnlyList xs && stringOnlyList ys) := by
  induction xs with
  | nil => simp [stringOnlyList]
  | cons x rest ih =>
    simp only [List.cons_append, stringOnlyList, List.append_eq, ih,
      Bool.and_assoc]

/-- Merging one key/value pair keeps the built object string-only: the
merged-in leaves are strings, arrays of strings, or string entries. -/
theorem insertPair_stringOnly {acc acc2 : List (String × JsonValue)}
    {kf : queryst.KeyForm} {v : String}
    (hins : queryst.insertPair acc kf v = .ok acc2)
    (hacc : stringOnlyEntries acc = true) : stringOnlyEntries acc2 = true := by
  cases kf with
  | plain k =>
    simp only [queryst.insertPair] at hins
    cases hins
    exact stringOnlyEntries_setEntry (by simp [stringOnly]) hacc
  | arrayKey k =>
    simp only [queryst.insertPair] at hins
    cases hl : queryst.lookupEntry acc k with
    | none =>
      rw [hl] at hins
      cases hins
      exact stringOnlyEntries_setEntry (by simp [stringOnly, stringOnlyList]) hacc
    | some w =>
      rw [hl] at hins
      cases w with
      | arr xs =>
        cases hins
        have hw := lookupEntry_stringOnly hl hacc
        simp only [stringOnly] at hw
        refine stringOnlyEntries_setEntry ?_ hacc
        simp only [stringOnly, stringOnlyList_append, hw, Bool.true_and,
          stringOnlyList, Bool.and_true]
      | null => cases hins
      | bool b => cases hins
      | num n => cases hins
      | str s => cases hins
      | obj es => cases hins
  | objKey k sub =>
    simp only [queryst.insertPair] at hins
    cases hl : queryst.lookupEntry acc k with
    | none =>
      rw [hl] at hins
      cases hins
      exact stringOnlyEntries_setEntry
        (by simp [stringOnly, stringOnlyEntries]) hacc
    | some w =>
      rw [hl] at hins
      cases w with
      | obj es =>
        cases hins
        have hw := lookupEntry_stringOnly hl hacc
        simp only [stringOnly] at hw
        refine stringOnlyEntries_setEntry ?_ hacc
        simp only [stringOnly]
        exact stringOnlyEntries_setEntry (by simp [stringOnly]) hw
      | null => cases hins
      | bool b => cases hins
      | num n => cases hins
      | str s => cases hins
      | arr xs => cases hins

/-- Folding all pairs of a query keeps the built object string-only. -/
theorem parsePairs_stringOnly (ps : List (List Char)) :
    ∀ {acc acc2 : List (String × JsonValue)},
      queryst.parsePairs acc ps = .ok acc2 →
      stringOnlyEntries acc = true → stringOnlyEntries acc2 = true := by
  induction ps with
  | nil =>
    intro acc acc2 h hacc
    simp only [queryst.parsePairs] at h
    cases h
    exact hacc
  | cons p rest ih =>
    intro acc acc2 h hacc
    simp only [queryst.parsePairs] at h
    rcases hpp : queryst.parsePair p with ⟨k, v⟩
    rw [hpp] at h
    cases hk : queryst.parseKey k with
    | error e =>
      rw [hk] at h
      simp [Bind.bind, Except.bind] at h
    | ok kf =>
      rw [hk] at h
      simp only [Bind.bind, Except.bind] at h
      cases hi : queryst.insertPair acc kf v with
      | error e => rw [hi] at h; simp at h
      | ok acc3 =>
        rw [hi] at h
        exact ih h (insertPair_stringOnly hi hacc)

/-- C10: the parser only ever produces string, array and object values —
never numbers or booleans — so a target type with a numeric scalar field
can never be extracted: `id=64` parses to the string `"64"` and decoding
it into a `u64` field fails with the decode-failure variant. -/
theorem c10_strings_only (q : String) (v : JsonValue)
    (h : queryst.parse q = .ok v) :
    stringOnly v = true ∧
    QuerySt.from_query decodeIdNum "id=64" =
      .error (.DeserializeType ⟨"invalid type: expected u64"⟩) := by
  refine ⟨?_, rfl⟩
  unfold queryst.parse at h
  split at h
  · cases h
    simp [stringOnly]
  · cases hp : queryst.parsePairs [] (queryst.splitOnChar '&' q.data) with
    | error e => rw [hp] at h; simp [Except.map] at h
    | ok es =>
      rw [hp] at h
      simp only [Except.map] at h
      cases h
      simp only [stringOnly]
      exact parsePairs_stringOnly _ hp rfl

/-- C10 witness: the value parsed from `id=64` is string-only, and the
numeric-field decode of that query fails with the decode-failure
variant. -/
theorem c10_witness :
    stringOnly (.obj [("id", .str "64")]) = true ∧
    QuerySt.from_query decodeIdNum "id=64" =
      .error (.DeserializeType ⟨"invalid type: expected u64"⟩) :=
  c10_strings_only "id=64" (.obj [("id", .str "64")]) rfl
